import Mathlib

/-!
# Verification of the Flexer layout engine (src/flexer.hpp)

A shallow embedding of the single-header flexbox-style layout engine:
the data model (`Rect`, `Element`), the engine state (`Flexer`), element
registration (`createElement` / `addParent`), the cached-rectangle read
(`getElementRect`) and the recursive layout pass (`performLayout`,
`performContainerLayout`).

Machine `int` values are modelled as unbounded `Int` (the claims under
study never exercise 32-bit overflow), `unsigned int` as `Nat`, and the
two `std::map`s as functions into `Option`.  The C++ recursion is
bottomless; here it carries
a fuel argument, and `performLayout` supplies `globalID` as fuel, which
strictly dominates the tree depth for every engine state built through
the API (a child's identity is always larger than its parent's).
C++ truncating division is `Int.tdiv`.
-/

inductive Axis where
  | horizontal
  | vertical
deriving DecidableEq

/-- Mirror of `flexer::Rect`: integer box, default `{0, 0, 100, 100}`. -/
structure Rect where
  x : Int := 0
  y : Int := 0
  width : Int := 100
  height : Int := 100
deriving DecidableEq

/-- Mirror of `flexer::Element` with its in-class initializers. -/
structure Element where
  parent : Nat := 0
  bounds : Rect := {}
  proportion : Nat := 1
  border : Nat := 3
  spacing : Nat := 3
  children : List Nat := []
  axis : Axis := .horizontal
deriving DecidableEq

abbrev ElemMap := Nat → Option Element
abbrev RectsMap := Nat → Option Rect

def insertE (k : Nat) (v : Element) (m : ElemMap) : ElemMap :=
  fun j => if j = k then some v else m j

def insertR (k : Nat) (v : Rect) (m : RectsMap) : RectsMap :=
  fun j => if j = k then some v else m j

def mainSize : Axis → Rect → Int
  | .horizontal, r => r.width
  | .vertical, r => r.height

def crossSize : Axis → Rect → Int
  | .horizontal, r => r.height
  | .vertical, r => r.width

def mainPos : Axis → Rect → Int
  | .horizontal, r => r.x
  | .vertical, r => r.y

/-- The running total of the first child loop of
`Flexer::performContainerLayout`: `totalProportions += proportion`. -/
def proportionSum (elems : ElemMap) (cs : List Nat) : Int :=
  cs.foldl (fun acc c =>
    match elems c with
    | none => acc
    | some cEl => acc + (cEl.proportion : Int)) 0

/-- `totalProportions = totalProportions <= 0 ? 1 : totalProportions`. -/
def totalProportions (elems : ElemMap) (cs : List Nat) : Int :=
  if proportionSum elems cs ≤ 0 then 1 else proportionSum elems cs

/-- The second child loop of `Flexer::performContainerLayout`: for every
fixed-size child (`proportion == 0`) the child's stored main-axis size is
subtracted from the working copy's main-axis size (`compSize -= size`). -/
def reserveFixed (elems : ElemMap) (ax : Axis) (cs : List Nat) (pb : Rect) : Rect :=
  cs.foldl (fun pb c =>
    match elems c with
    | none => pb
    | some cEl =>
      if cEl.proportion = 0 then
        match ax with
        | .horizontal => { pb with width := pb.width - cEl.bounds.width }
        | .vertical => { pb with height := pb.height - cEl.bounds.height }
      else pb) pb

/-- `const int size = (... parentBounds.width : parentBounds.height) -
el->border * 2;` — taken AFTER the fixed-child subtraction has mutated
`parentBounds` through the `compSize` reference. -/
def availableMainSize (elems : ElemMap) (ax : Axis) (border : Nat) (cs : List Nat)
    (pb : Rect) : Int :=
  mainSize ax (reserveFixed elems ax cs pb) - (border : Int) * 2

/-- One child's rectangle before the spacing adjustment: the body of the
`switch (el->axis)` in `Flexer::performContainerLayout`, up to and
including the cross-axis forcing. -/
def childRect (ax : Axis) (border : Nat) (size tp : Int) (pb : Rect) (cEl : Element) :
    Rect :=
  let ret := cEl.bounds
  let ret := { ret with x := ret.x + pb.x + (border : Int), y := ret.y + pb.y + (border : Int) }
  match ax with
  | .horizontal =>
    let sizeSlice := Int.tdiv (size - (if cEl.proportion ≤ 0 then ret.width else 0)) tp
    let ret := if 1 ≤ cEl.proportion then { ret with width := sizeSlice * (cEl.proportion : Int) } else ret
    { ret with height := pb.height - (border : Int) * 2 }
  | .vertical =>
    let sizeSlice := Int.tdiv (size - (if cEl.proportion ≤ 0 then ret.height else 0)) tp
    let ret := if 1 ≤ cEl.proportion then { ret with height := sizeSlice * (cEl.proportion : Int) } else ret
    { ret with width := pb.width - (border : Int) * 2 }

/-- `if (e != el->children.back()) ret.width -= el->spacing;` (resp.
`ret.height`): spacing is eaten out of every non-last child's own size. -/
def applySpacing (ax : Axis) (spacing : Nat) (isLast : Bool) (ret : Rect) : Rect :=
  if isLast then ret
  else
    match ax with
    | .horizontal => { ret with width := ret.width - (spacing : Int) }
    | .vertical => { ret with height := ret.height - (spacing : Int) }

/-- `parentBounds.x += ret.width; parentBounds.width -= ret.width;`
(resp. `y`/`height`) — the cursor advance, using the pre-spacing size. -/
def advanceCursor : Axis → Rect → Rect → Rect
  | .horizontal, pb, ret => { pb with x := pb.x + ret.width, width := pb.width - ret.width }
  | .vertical, pb, ret => { pb with y := pb.y + ret.height, height := pb.height - ret.height }

/-- The third child loop of `Flexer::performContainerLayout`: compute the
child's rectangle, store it, recurse (`recur` is the recursive call at
one unit less fuel), then continue with the advanced cursor.  A child
identity that names no element is skipped (in the C++ source this
dereferences a null pointer, which is unreachable for API-built trees). -/
def performChildren (elems : ElemMap) (recur : Nat → RectsMap → RectsMap) (ax : Axis)
    (border spacing lastId : Nat) (size tp : Int) :
    List Nat → Rect → RectsMap → RectsMap
  | [], _, rects => rects
  | c :: rest, pb, rects =>
    match elems c with
    | none => performChildren elems recur ax border spacing lastId size tp rest pb rects
    | some cEl =>
      let ret0 := childRect ax border size tp pb cEl
      let ret := applySpacing ax spacing (c == lastId) ret0
      performChildren elems recur ax border spacing lastId size tp rest
        (advanceCursor ax pb ret0) (recur c (insertR c ret rects))

/-- Mirror of `Flexer::performContainerLayout(EID id)`, with fuel.
Reads and writes of `m_elementLayoutRects` follow the source line by
line, including the `operator[]` insert-if-absent when the working copy
`parentBounds` is read. -/
def performContainerLayout (elems : ElemMap) : Nat → Nat → RectsMap → RectsMap
  | 0 => fun _ rects => rects
  | fuel + 1 => fun id rects =>
    match elems id with
    | none => rects
    | some el =>
      let rects1 := if el.parent = 0 then insertR id el.bounds rects else rects
      if el.children.isEmpty then rects1
      else
        let pb0 := (rects1 id).getD {}
        let rects2 := if (rects1 id).isSome then rects1 else insertR id {} rects1
        performChildren elems (performContainerLayout elems fuel) el.axis el.border
          el.spacing (el.children.getLastD 0)
          (availableMainSize elems el.axis el.border el.children pb0)
          (totalProportions elems el.children)
          el.children (reserveFixed elems el.axis el.children pb0) rects2

/-- Mirror of `flexer::Flexer`'s private state. -/
structure Flexer where
  globalID : Nat := 1
  elements : ElemMap := fun _ => none
  rects : RectsMap := fun _ => none

def flexerInit : Flexer := {}

/-- Mirror of `Flexer::addParent(EID id, EID parent)` on the element
table: when `parent != 0`, stamp the child's `parent` field and append
the child to the parent's `children`.  A `parent` identity absent from
the table leaves the children push undone (in the C++ source this is a
null-pointer dereference, unreachable through defined API use). -/
def addParent (elems : ElemMap) (id parent : Nat) : ElemMap :=
  if parent ≠ 0 then
    let elems1 :=
      match elems id with
      | some e => insertE id { e with parent := parent } elems
      | none => elems
    match elems1 parent with
    | some pe => insertE parent { pe with children := pe.children ++ [id] } elems1
    | none => elems1
  else elems

/-- Mirror of `Flexer::createElement(Element el)`: allocate
`id = m_globalID++`, store a fresh default element, copy only `bounds`,
`axis`, `proportion`, `border` and `spacing` from the argument, then run
`addParent(id, el.parent)`. -/
def createElement (s : Flexer) (el : Element) : Nat × Flexer :=
  let id := s.globalID
  let stored : Element :=
    { parent := 0, bounds := el.bounds, proportion := el.proportion,
      border := el.border, spacing := el.spacing, children := [], axis := el.axis }
  let elems := insertE id stored s.elements
  let elems := addParent elems id el.parent
  (id, { s with globalID := id + 1, elements := elems })

/-- Mirror of `Flexer::getElementRect(EID id)`:
`return m_elementLayoutRects[id];` — `std::map::operator[]` on a missing
key inserts a default-constructed `Rect` before returning it, so the
call yields the possibly-updated engine state alongside the rectangle. -/
def getElementRect (s : Flexer) (id : Nat) : Rect × Flexer :=
  match s.rects id with
  | some r => (r, s)
  | none => ({}, { s with rects := insertR id {} s.rects })

/-- Mirror of `Flexer::performLayout()`: `performContainerLayout(1)`,
with `globalID` as fuel (an upper bound on the depth of any API-built
tree, since every child identity exceeds its parent's). -/
def performLayout (s : Flexer) : Flexer :=
  { s with rects := performContainerLayout s.elements s.globalID 1 s.rects }

/-! ## Pure views of the pass

`childLayoutWrites` / `layoutWrites` recompute, as an explicit list of
`(key, rectangle)` writes in execution order, exactly what
`performChildren` / `performContainerLayout` store into the rectangle
map; `seen` stands for the value the entry-point read of
`m_elementLayoutRects[id]` observes.  `childRectsList` is the sub-list
of writes a single container performs for its direct children (the
recursive descent removed).  The agreement lemmas below tie all three to
the executable pass. -/

def childLayoutWrites (elems : ElemMap) (recurW : Nat → Option Rect → List (Nat × Rect))
    (ax : Axis) (border spacing lastId : Nat) (size tp : Int) :
    List Nat → Rect → List (Nat × Rect)
  | [], _ => []
  | c :: rest, pb =>
    match elems c with
    | none => childLayoutWrites elems recurW ax border spacing lastId size tp rest pb
    | some cEl =>
      let ret0 := childRect ax border size tp pb cEl
      let ret := applySpacing ax spacing (c == lastId) ret0
      ((c, ret) :: recurW c (some ret)) ++
        childLayoutWrites elems recurW ax border spacing lastId size tp rest
          (advanceCursor ax pb ret0)

def layoutWrites (elems : ElemMap) : Nat → Nat → Option Rect → List (Nat × Rect)
  | 0 => fun _ _ => []
  | fuel + 1 => fun id seen =>
    match elems id with
    | none => []
    | some el =>
      let seedW := if el.parent = 0 then [(id, el.bounds)] else []
      let cur := if el.parent = 0 then some el.bounds else seen
      if el.children.isEmpty then seedW
      else
        let pb0 := cur.getD {}
        let insW := if cur.isSome then ([] : List (Nat × Rect)) else [(id, ({} : Rect))]
        seedW ++ insW ++
          childLayoutWrites elems (layoutWrites elems fuel) el.axis el.border el.spacing
            (el.children.getLastD 0)
            (availableMainSize elems el.axis el.border el.children pb0)
            (totalProportions elems el.children)
            el.children (reserveFixed elems el.axis el.children pb0)

def childRectsList (elems : ElemMap) (ax : Axis) (border spacing lastId : Nat)
    (size tp : Int) : List Nat → Rect → List (Nat × Rect)
  | [], _ => []
  | c :: rest, pb =>
    match elems c with
    | none => childRectsList elems ax border spacing lastId size tp rest pb
    | some cEl =>
      let ret0 := childRect ax border size tp pb cEl
      (c, applySpacing ax spacing (c == lastId) ret0) ::
        childRectsList elems ax border spacing lastId size tp rest (advanceCursor ax pb ret0)

/-- Replay a list of writes, in order, over a rectangle map. -/
def applyW (r : RectsMap) (ws : List (Nat × Rect)) : RectsMap :=
  ws.foldl (fun m kv => insertR kv.1 kv.2 m) r

/-- The last write to key `k` in a write list, if any. -/
def lookupLast (ws : List (Nat × Rect)) (k : Nat) : Option Rect :=
  ws.foldl (fun acc kv => if kv.1 = k then some kv.2 else acc) none

/-- `k` occurs in some registered element's children sequence. -/
def childKey (elems : ElemMap) (k : Nat) : Prop :=
  ∃ j el, elems j = some el ∧ k ∈ el.children

/-- Total main-axis size of the fixed-size (`proportion == 0`) children,
the amount the source pre-subtracts from the working copy. -/
def fixedMainSum (elems : ElemMap) (ax : Axis) : List Nat → Int
  | [] => 0
  | c :: rest =>
    (match elems c with
     | none => 0
     | some cEl => if cEl.proportion = 0 then mainSize ax cEl.bounds else 0) +
    fixedMainSum elems ax rest

/-! ## Concrete engine states for the claim instances -/

/-- The spec's concrete scenario: root `(0,0,300,100)`, horizontal,
border `0`, spacing `sp`, three stretch children preset to `(0,0,0,0)`,
built through the public API. -/
def mkC2 (sp : Nat) : Flexer :=
  let r1 := createElement flexerInit
    { parent := 0, bounds := ⟨0, 0, 300, 100⟩, border := 0, spacing := sp, axis := .horizontal }
  let r2 := createElement r1.2 { parent := 1, bounds := ⟨0, 0, 0, 0⟩, proportion := 1 }
  let r3 := createElement r2.2 { parent := 1, bounds := ⟨0, 0, 0, 0⟩, proportion := 1 }
  let r4 := createElement r3.2 { parent := 1, bounds := ⟨0, 0, 0, 0⟩, proportion := 1 }
  r4.2

/-- A container holding one fixed child of main size `50` and one
stretch child, built through the public API. -/
def sC1 : Flexer :=
  let r1 := createElement flexerInit
    { parent := 0, bounds := ⟨0, 0, 300, 100⟩, border := 0, spacing := 0, axis := .horizontal }
  let r2 := createElement r1.2 { parent := 1, bounds := ⟨0, 0, 50, 0⟩, proportion := 0 }
  let r3 := createElement r2.2 { parent := 1, bounds := ⟨0, 0, 0, 0⟩, proportion := 1 }
  r3.2

/-- Two root elements (`parent = 0`), built through the public API; the
second is never visited by the layout pass. -/
def sC3 : Flexer :=
  let r1 := createElement flexerInit { parent := 0, bounds := ⟨0, 0, 300, 100⟩ }
  let r2 := createElement r1.2 { parent := 0, bounds := ⟨5, 5, 7, 8⟩ }
  r2.2

/-- Two fixed children whose stored bounds carry main-axis offsets `100`
and `0`, built through the public API: the second child is placed left
of the first. -/
def sC7 : Flexer :=
  let r1 := createElement flexerInit
    { parent := 0, bounds := ⟨0, 0, 300, 100⟩, border := 0, spacing := 0, axis := .horizontal }
  let r2 := createElement r1.2 { parent := 1, bounds := ⟨100, 0, 10, 0⟩, proportion := 0 }
  let r3 := createElement r2.2 { parent := 1, bounds := ⟨0, 0, 10, 0⟩, proportion := 0 }
  r3.2

/-- Element table of a root with one childless child. -/
def elemsC3W : ElemMap := fun j =>
  if j = 1 then
    some { parent := 0, bounds := ⟨1, 2, 30, 40⟩, border := 0, spacing := 0,
           children := [2], axis := .horizontal }
  else if j = 2 then
    some { parent := 1, bounds := ⟨0, 0, 5, 5⟩, proportion := 1 }
  else none

/-- A root with one childless child, written out literally. -/
def sC3W : Flexer :=
  { globalID := 3, elements := elemsC3W, rects := fun _ => none }

/-- A single root element, built through the public API. -/
def sC6W : Flexer :=
  (createElement flexerInit { parent := 0, bounds := ⟨0, 0, 60, 60⟩ }).2

/-- One fixed child element, used to instantiate the cross-axis claim. -/
def elems4W : ElemMap :=
  fun j => if j = 2 then some { parent := 1, bounds := ⟨0, 0, 10, 20⟩, proportion := 0 } else none

/-- One fixed child element: its proportion sum is `0`. -/
def elems5W : ElemMap :=
  fun j => if j = 2 then some { parent := 1, proportion := 0 } else none

/-- Two stretch children with zero preset bounds. -/
def elems7W : ElemMap :=
  fun j =>
    if j = 2 then some { parent := 1, bounds := ⟨0, 0, 0, 0⟩, proportion := 1 }
    else if j = 3 then some { parent := 1, bounds := ⟨0, 0, 0, 0⟩, proportion := 1 }
    else none

/-- An element-creation argument carrying a nonempty children list. -/
def elW10 : Element := { parent := 0, bounds := ⟨1, 1, 2, 2⟩, children := [9] }

/-! ## Basic lemmas about maps and write lists -/

theorem insertR_self (k : Nat) (v : Rect) (m : RectsMap) : insertR k v m k = some v := by
  simp [insertR]

theorem insertR_ne (k : Nat) (v : Rect) (m : RectsMap) (j : Nat) (h : j ≠ k) :
    insertR k v m j = m j := by
  simp [insertR, h]

theorem insertE_self (k : Nat) (v : Element) (m : ElemMap) : insertE k v m k = some v := by
  simp [insertE]

theorem insertE_ne (k : Nat) (v : Element) (m : ElemMap) (j : Nat) (h : j ≠ k) :
    insertE k v m j = m j := by
  simp [insertE, h]

theorem applyW_nil (r : RectsMap) : applyW r [] = r := rfl

theorem applyW_cons (r : RectsMap) (kv : Nat × Rect) (ws : List (Nat × Rect)) :
    applyW r (kv :: ws) = applyW (insertR kv.1 kv.2 r) ws := rfl

theorem applyW_append (r : RectsMap) (w1 w2 : List (Nat × Rect)) :
    applyW r (w1 ++ w2) = applyW (applyW r w1) w2 :=
  List.foldl_append _ _ _ _

theorem foldl_lookup_shift (k : Nat) (ws : List (Nat × Rect)) : ∀ acc : Option Rect,
    ws.foldl (fun a kv => if kv.1 = k then some kv.2 else a) acc =
      (lookupLast ws k).elim acc some := by
  induction ws with
  | nil => intro acc; rfl
  | cons kv ws ih =>
    intro acc
    have h1 : lookupLast (kv :: ws) k =
        ws.foldl (fun a kv => if kv.1 = k then some kv.2 else a)
          (if kv.1 = k then some kv.2 else none) := rfl
    rw [List.foldl_cons, ih, h1, ih]
    cases hl : lookupLast ws k with
    | some v => rfl
    | none => by_cases hk : kv.1 = k <;> simp [hk]

theorem applyW_apply (ws : List (Nat × Rect)) (k : Nat) : ∀ r : RectsMap,
    applyW r ws k = (lookupLast ws k).elim (r k) some := by
  induction ws with
  | nil => intro r; rfl
  | cons kv ws ih =>
    intro r
    rw [applyW_cons, ih]
    have h1 : lookupLast (kv :: ws) k =
        ws.foldl (fun a kv => if kv.1 = k then some kv.2 else a)
          (if kv.1 = k then some kv.2 else none) := rfl
    rw [h1, foldl_lookup_shift]
    cases hl : lookupLast ws k with
    | some v => rfl
    | none =>
      simp only [Option.elim, insertR]
      by_cases hk : kv.1 = k
      · simp [hk]
      · have hk2 : ¬ k = kv.1 := fun h => hk h.symm
        simp [hk, hk2]

theorem applyW_applyW (r : RectsMap) (ws : List (Nat × Rect)) :
    applyW (applyW r ws) ws = applyW r ws := by
  funext k
  rw [applyW_apply, applyW_apply]
  cases hl : lookupLast ws k with
  | some v => rfl
  | none => rfl

theorem lookupLast_none (k : Nat) (ws : List (Nat × Rect)) (h : ∀ p ∈ ws, p.1 ≠ k) :
    lookupLast ws k = none := by
  induction ws with
  | nil => rfl
  | cons kv ws ih =>
    have h1 : lookupLast (kv :: ws) k =
        ws.foldl (fun a kv => if kv.1 = k then some kv.2 else a)
          (if kv.1 = k then some kv.2 else none) := rfl
    rw [h1, foldl_lookup_shift, ih (fun p hp => h p (List.mem_cons_of_mem _ hp))]
    simp [h kv (List.mem_cons_self _ _)]

theorem lookupLast_head (k : Nat) (v : Rect) (ws : List (Nat × Rect))
    (h : ∀ p ∈ ws, p.1 ≠ k) : lookupLast ((k, v) :: ws) k = some v := by
  have h1 : lookupLast ((k, v) :: ws) k =
      ws.foldl (fun a kv => if kv.1 = k then some kv.2 else a)
        (if k = k then some v else none) := rfl
  rw [h1, foldl_lookup_shift, lookupLast_none k ws h]
  simp

/-! ## The pass as a replay of its write list -/

theorem performChildren_applyW (elems : ElemMap) (recur : Nat → RectsMap → RectsMap)
    (recurW : Nat → Option Rect → List (Nat × Rect))
    (hrec : ∀ c m, recur c m = applyW m (recurW c (m c)))
    (ax : Axis) (border spacing lastId : Nat) (size tp : Int) :
    ∀ (cs : List Nat) (pb : Rect) (rects : RectsMap),
      performChildren elems recur ax border spacing lastId size tp cs pb rects =
        applyW rects (childLayoutWrites elems recurW ax border spacing lastId size tp cs pb) := by
  intro cs
  induction cs with
  | nil => intro pb rects; rfl
  | cons c rest ih =>
    intro pb rects
    cases hc : elems c with
    | none => simp only [performChildren, childLayoutWrites, hc, ih]
    | some cEl =>
      simp only [performChildren, childLayoutWrites, hc]
      rw [ih, hrec, insertR_self, applyW_append, applyW_cons]

theorem performContainerLayout_applyW (elems : ElemMap) :
    ∀ (fuel id : Nat) (r : RectsMap),
      performContainerLayout elems fuel id r = applyW r (layoutWrites elems fuel id (r id)) := by
  intro fuel
  induction fuel with
  | zero => intro id r; rfl
  | succ fuel ih =>
    intro id r
    cases hid : elems id with
    | none => simp only [performContainerLayout, layoutWrites, hid]; rfl
    | some el =>
      simp only [performContainerLayout, layoutWrites, hid]
      by_cases hp : el.parent = 0
      · simp only [hp, if_true]
        cases hch : el.children.isEmpty
        · simp only [Bool.false_eq_true, if_false]
          rw [insertR_self]
          rw [performChildren_applyW elems _ _ ih]
          rw [applyW_append, applyW_append]
          rfl
        · simp only [if_true]
          rfl
      · simp only [hp, if_false]
        cases hch : el.children.isEmpty
        · simp only [Bool.false_eq_true, if_false]
          cases hs : r id with
          | some v =>
            simp only [hs, Option.getD, Option.isSome, if_true]
            rw [performChildren_applyW elems _ _ ih]
            rfl
          | none =>
            simp only [hs, Option.getD, Option.isSome, Bool.false_eq_true, if_false]
            rw [performChildren_applyW elems _ _ ih]
            rw [applyW_append, applyW_append]
            rfl
        · simp only [if_true]
          rfl

theorem layoutWrites_parent0 (elems : ElemMap) (fuel id : Nat) (s1 s2 : Option Rect)
    (h : ((elems id).map Element.parent).getD 0 = 0) :
    layoutWrites elems fuel id s1 = layoutWrites elems fuel id s2 := by
  cases fuel with
  | zero => rfl
  | succ fuel =>
    cases hid : elems id with
    | none => simp only [layoutWrites, hid]
    | some el =>
      have hp : el.parent = 0 := by simpa [hid] using h
      simp only [layoutWrites, hid, hp, if_true]

theorem childLayoutWrites_keys (elems : ElemMap)
    (recurW : Nat → Option Rect → List (Nat × Rect))
    (hrecK : ∀ c seen p, p ∈ recurW c seen → p.1 = c ∨ childKey elems p.1)
    (ax : Axis) (border spacing lastId : Nat) (size tp : Int) :
    ∀ (cs : List Nat) (pb : Rect) (p : Nat × Rect),
      p ∈ childLayoutWrites elems recurW ax border spacing lastId size tp cs pb →
      p.1 ∈ cs ∨ childKey elems p.1 := by
  intro cs
  induction cs with
  | nil => intro pb p hp; cases hp
  | cons c rest ih =>
    intro pb p hp
    cases hc : elems c with
    | none =>
      simp only [childLayoutWrites, hc] at hp
      rcases ih _ p hp with h | h
      · exact Or.inl (List.mem_cons_of_mem _ h)
      · exact Or.inr h
    | some cEl =>
      simp only [childLayoutWrites, hc, List.mem_append, List.mem_cons] at hp
      rcases hp with (rfl | hp) | hp
      · exact Or.inl (List.mem_cons_self _ _)
      · rcases hrecK c _ p hp with h | h
        · exact Or.inl (h ▸ List.mem_cons_self _ _)
        · exact Or.inr h
      · rcases ih _ p hp with h | h
        · exact Or.inl (List.mem_cons_of_mem _ h)
        · exact Or.inr h

theorem layoutWrites_keys (elems : ElemMap) :
    ∀ (fuel id : Nat) (seen : Option Rect) (p : Nat × Rect),
      p ∈ layoutWrites elems fuel id seen → p.1 = id ∨ childKey elems p.1 := by
  intro fuel
  induction fuel with
  | zero => intro id seen p hp; cases hp
  | succ fuel ih =>
    intro id seen p hp
    cases hid : elems id with
    | none => simp only [layoutWrites, hid] at hp; cases hp
    | some el =>
      by_cases hp0 : el.parent = 0
      · cases hch : el.children.isEmpty
        · simp only [layoutWrites, hid, hp0, hch, if_true, Bool.false_eq_true, if_false,
            Option.isSome_some, Option.getD_some, List.nil_append, List.singleton_append,
            List.mem_cons] at hp
          rcases hp with rfl | hp
          · exact Or.inl rfl
          · rcases childLayoutWrites_keys elems _ ih _ _ _ _ _ _ _ _ _ hp with h | h
            · exact Or.inr ⟨id, el, hid, h⟩
            · exact Or.inr h
        · simp only [layoutWrites, hid, hp0, hch, if_true, List.mem_singleton] at hp
          exact Or.inl (by rw [hp])
      · cases hch : el.children.isEmpty
        · cases hseen : seen with
          | some v =>
            simp only [layoutWrites, hid, hp0, hch, hseen, if_false, Bool.false_eq_true,
              Option.isSome_some, if_true, Option.getD_some, List.nil_append] at hp
            rcases childLayoutWrites_keys elems _ ih _ _ _ _ _ _ _ _ _ hp with h | h
            · exact Or.inr ⟨id, el, hid, h⟩
            · exact Or.inr h
          | none =>
            simp only [layoutWrites, hid, hp0, hch, hseen, if_false, Bool.false_eq_true,
              Option.isSome_none, Option.getD_none, List.nil_append, List.singleton_append,
              List.mem_cons] at hp
            rcases hp with rfl | hp
            · exact Or.inl rfl
            · rcases childLayoutWrites_keys elems _ ih _ _ _ _ _ _ _ _ _ hp with h | h
              · exact Or.inr ⟨id, el, hid, h⟩
              · exact Or.inr h
        · simp only [layoutWrites, hid, hp0, hch, if_false, if_true] at hp
          cases hp

/-! ## Geometric facts about the per-child step -/

theorem performChildren_eq_childRectsList (elems : ElemMap)
    (recur : Nat → RectsMap → RectsMap) (ax : Axis) (border spacing lastId : Nat)
    (size tp : Int) :
    ∀ (cs : List Nat) (pb : Rect) (rects : RectsMap),
      performChildren elems recur ax border spacing lastId size tp cs pb rects =
        (childRectsList elems ax border spacing lastId size tp cs pb).foldl
          (fun r p => recur p.1 (insertR p.1 p.2 r)) rects := by
  intro cs
  induction cs with
  | nil => intro pb rects; rfl
  | cons c rest ih =>
    intro pb rects
    cases hc : elems c with
    | none => simp only [performChildren, childRectsList, hc, ih]
    | some cEl => simp only [performChildren, childRectsList, hc, ih, List.foldl_cons]

theorem applySpacing_crossSize (ax : Axis) (spacing : Nat) (b : Bool) (ret : Rect) :
    crossSize ax (applySpacing ax spacing b ret) = crossSize ax ret := by
  cases b <;> cases ax <;> rfl

theorem applySpacing_mainPos (ax : Axis) (spacing : Nat) (b : Bool) (ret : Rect) :
    mainPos ax (applySpacing ax spacing b ret) = mainPos ax ret := by
  cases b <;> cases ax <;> rfl

theorem advanceCursor_crossSize (ax : Axis) (pb ret : Rect) :
    crossSize ax (advanceCursor ax pb ret) = crossSize ax pb := by
  cases ax <;> rfl

theorem advanceCursor_mainPos (ax : Axis) (pb ret : Rect) :
    mainPos ax (advanceCursor ax pb ret) = mainPos ax pb + mainSize ax ret := by
  cases ax <;> rfl

theorem childRect_crossSize (ax : Axis) (border : Nat) (size tp : Int) (pb : Rect)
    (cEl : Element) :
    crossSize ax (childRect ax border size tp pb cEl) =
      crossSize ax pb - (border : Int) * 2 := by
  cases ax <;> rfl

theorem childRect_mainPos (ax : Axis) (border : Nat) (size tp : Int) (pb : Rect)
    (cEl : Element) :
    mainPos ax (childRect ax border size tp pb cEl) =
      mainPos ax cEl.bounds + mainPos ax pb + (border : Int) := by
  cases ax <;> simp only [childRect, mainPos] <;> split <;> rfl

theorem childRect_mainSize_nonneg (ax : Axis) (border : Nat) (size tp : Int) (pb : Rect)
    (cEl : Element) (hsize : 0 ≤ size) (htp : 0 < tp)
    (hfix : cEl.proportion = 0 → 0 ≤ mainSize ax cEl.bounds) :
    0 ≤ mainSize ax (childRect ax border size tp pb cEl) := by
  by_cases hp : 1 ≤ cEl.proportion
  · have h0 : ¬ cEl.proportion ≤ 0 := by omega
    have hdiv : 0 ≤ Int.tdiv (size - 0) tp :=
      Int.tdiv_nonneg (by omega) (le_of_lt htp)
    have hmul : 0 ≤ Int.tdiv (size - 0) tp * (cEl.proportion : Int) :=
      mul_nonneg hdiv (by positivity)
    cases ax <;> simp only [childRect, mainSize, h0, if_false, hp, if_true] <;> exact hmul
  · have hp0 : cEl.proportion = 0 := by omega
    have h0 : cEl.proportion ≤ 0 := by omega
    have := hfix hp0
    cases ax <;> simp only [childRect, mainSize, hp, if_false] <;>
      simpa [mainSize] using this

theorem reserveFixed_crossSize (elems : ElemMap) (ax : Axis) :
    ∀ (cs : List Nat) (pb : Rect),
      crossSize ax (reserveFixed elems ax cs pb) = crossSize ax pb := by
  intro cs
  induction cs with
  | nil => intro pb; rfl
  | cons c rest ih =>
    intro pb
    show crossSize ax (reserveFixed elems ax rest _) = _
    rw [ih]
    cases hc : elems c with
    | none => simp only [hc]
    | some cEl =>
      simp only [hc]
      by_cases h0 : cEl.proportion = 0
      · simp only [h0, if_true]
        cases ax <;> rfl
      · simp only [h0, if_false]

theorem reserveFixed_mainSize (elems : ElemMap) (ax : Axis) :
    ∀ (cs : List Nat) (pb : Rect),
      mainSize ax (reserveFixed elems ax cs pb) =
        mainSize ax pb - fixedMainSum elems ax cs := by
  intro cs
  induction cs with
  | nil =>
    intro pb
    show mainSize ax pb = mainSize ax pb - fixedMainSum elems ax []
    simp [fixedMainSum]
  | cons c rest ih =>
    intro pb
    show mainSize ax (reserveFixed elems ax rest _) = _
    rw [ih, fixedMainSum]
    cases hc : elems c with
    | none => simp only [hc]; omega
    | some cEl =>
      simp only [hc]
      by_cases h0 : cEl.proportion = 0
      · simp only [h0, if_true]
        cases ax <;> simp only [mainSize] <;> omega
      · simp only [h0, if_false]
        omega

theorem childRectsList_crossSize (elems : ElemMap) (ax : Axis)
    (border spacing lastId : Nat) (size tp : Int) :
    ∀ (cs : List Nat) (pb : Rect) (p : Nat × Rect),
      p ∈ childRectsList elems ax border spacing lastId size tp cs pb →
      crossSize ax p.2 = crossSize ax pb - (border : Int) * 2 := by
  intro cs
  induction cs with
  | nil => intro pb p hp; cases hp
  | cons c rest ih =>
    intro pb p hp
    cases hc : elems c with
    | none =>
      simp only [childRectsList, hc] at hp
      exact ih pb p hp
    | some cEl =>
      simp only [childRectsList, hc, List.mem_cons] at hp
      rcases hp with rfl | hp
      · rw [applySpacing_crossSize, childRect_crossSize]
      · rw [ih _ p hp, advanceCursor_crossSize]

theorem childRectsList_pos_lb (elems : ElemMap) (ax : Axis)
    (border spacing lastId : Nat) (size tp : Int)
    (hsize : 0 ≤ size) (htp : 0 < tp) :
    ∀ (cs : List Nat) (pb : Rect),
      (∀ c cEl, c ∈ cs → elems c = some cEl →
        mainPos ax cEl.bounds = 0 ∧ (cEl.proportion = 0 → 0 ≤ mainSize ax cEl.bounds)) →
      ∀ p ∈ childRectsList elems ax border spacing lastId size tp cs pb,
        mainPos ax pb + (border : Int) ≤ mainPos ax p.2 := by
  intro cs
  induction cs with
  | nil => intro pb _ p hp; cases hp
  | cons c rest ih =>
    intro pb hh p hp
    cases hc : elems c with
    | none =>
      simp only [childRectsList, hc] at hp
      exact ih pb (fun c cEl hm he => hh c cEl (List.mem_cons_of_mem _ hm) he) p hp
    | some cEl =>
      obtain ⟨hb0, hfix⟩ := hh c cEl (List.mem_cons_self _ _) hc
      simp only [childRectsList, hc, List.mem_cons] at hp
      rcases hp with rfl | hp
      · rw [applySpacing_mainPos, childRect_mainPos, hb0]
        omega
      · have h1 := ih (advanceCursor ax pb (childRect ax border size tp pb cEl))
          (fun c cEl hm he => hh c cEl (List.mem_cons_of_mem _ hm) he) p hp
        rw [advanceCursor_mainPos] at h1
        have h2 := childRect_mainSize_nonneg ax border size tp pb cEl hsize htp hfix
        omega

theorem applyW_head_key (r : RectsMap) (k : Nat) (v : Rect) (ws : List (Nat × Rect))
    (h : ∀ p ∈ ws, p.1 ≠ k) : applyW r ((k, v) :: ws) k = some v := by
  rw [applyW_cons, applyW_apply, lookupLast_none k ws h]
  exact insertR_self k v r

/-! ## The claims -/

/-- Claim C1, counterexample: in the API-built state `sC1` — a root
container `(0,0,300,100)` with border `0`, one fixed child of stored
main size `50` and one stretch child — the distributable span
`availableMainSize` computed by the pass (at the exact arguments
`performContainerLayout` passes it) is NOT the container's original
main-axis size minus `2 × border`: it is `250`, not `300`, because the
`compSize` reference has already subtracted the fixed child's size from
the working copy when `size` is computed.  Accordingly the stretch
child's laid-out width is `250`. -/
theorem c1_counterexample :
    availableMainSize sC1.elements Axis.horizontal 0 [2, 3] ⟨0, 0, 300, 100⟩ ≠
        mainSize Axis.horizontal ⟨0, 0, 300, 100⟩ - (0 : Int) * 2 ∧
      (performLayout sC1).rects 3 = some ⟨50, 0, 250, 100⟩ :=
  ⟨by decide, by decide⟩

/-- Claim C1, amended: the distributable span `availableMainSize` used
to size stretch children equals the container's main-axis size minus the
sum of the fixed children's stored main-axis sizes minus `2 × border` —
it incorporates the fixed-child pre-subtraction rather than being
independent of it. -/
theorem c1_available_main_size (elems : ElemMap) (ax : Axis) (border : Nat)
    (cs : List Nat) (pb : Rect) :
    availableMainSize elems ax border cs pb =
      mainSize ax pb - fixedMainSum elems ax cs - (border : Int) * 2 := by
  unfold availableMainSize
  rw [reserveFixed_mainSize]

theorem c1_available_main_size_witness :
    availableMainSize sC1.elements Axis.horizontal 0 [2, 3] ⟨0, 0, 300, 100⟩ =
      mainSize Axis.horizontal ⟨0, 0, 300, 100⟩ -
        fixedMainSum sC1.elements Axis.horizontal [2, 3] - (0 : Int) * 2 :=
  c1_available_main_size sC1.elements Axis.horizontal 0 [2, 3] ⟨0, 0, 300, 100⟩

set_option maxHeartbeats 2000000 in
/-- Claim C2: for the API-built tree with root bounds `(0,0,300,100)`,
horizontal axis, border `0`, spacing `sp` and three stretch children
preset to `(0,0,0,0)`, the pass produces widths `100 − sp`, `100 − sp`,
`100` (spacing eaten out of the two non-last children's own widths),
heights all `100`, and x-offsets `0`, `100`, `200`. -/
theorem c2_concrete_scenario (sp : Nat) :
    (performLayout (mkC2 sp)).rects 2 = some ⟨0, 0, 100 - (sp : Int), 100⟩ ∧
      (performLayout (mkC2 sp)).rects 3 = some ⟨100, 0, 100 - (sp : Int), 100⟩ ∧
      (performLayout (mkC2 sp)).rects 4 = some ⟨200, 0, 100, 100⟩ :=
  ⟨rfl, rfl, rfl⟩

theorem c2_concrete_scenario_witness :
    (performLayout (mkC2 7)).rects 2 = some ⟨0, 0, 93, 100⟩ ∧
      (performLayout (mkC2 7)).rects 3 = some ⟨100, 0, 93, 100⟩ ∧
      (performLayout (mkC2 7)).rects 4 = some ⟨200, 0, 100, 100⟩ :=
  c2_concrete_scenario 7

/-- Claim C4: every rectangle a container's child loop stores — for any
child, any proportion, and either axis — has cross-axis size equal to
the container's cross-axis size minus `2 × border`.  (`childRectsList`
at cursor `reserveFixed elems ax cs contR` is exactly the sequence of
child rectangles `performContainerLayout` stores for a container whose
own rectangle is `contR`; see `performChildren_eq_childRectsList`.) -/
theorem c4_cross_axis (elems : ElemMap) (ax : Axis) (border spacing lastId : Nat)
    (size tp : Int) (cs : List Nat) (contR : Rect) (c : Nat) (ret : Rect)
    (h : (c, ret) ∈ childRectsList elems ax border spacing lastId size tp cs
      (reserveFixed elems ax cs contR)) :
    crossSize ax ret = crossSize ax contR - (border : Int) * 2 := by
  have h2 := childRectsList_crossSize elems ax border spacing lastId size tp cs _ _ h
  rwa [reserveFixed_crossSize] at h2

theorem c4_cross_axis_witness :
    (2, (⟨3, 3, 10, 94⟩ : Rect)) ∈ childRectsList elems4W Axis.horizontal 3 3 2 0 1 [2]
        (reserveFixed elems4W Axis.horizontal [2] ⟨0, 0, 300, 100⟩) ∧
      crossSize Axis.horizontal ⟨3, 3, 10, 94⟩ =
        crossSize Axis.horizontal ⟨0, 0, 300, 100⟩ - (3 : Int) * 2 :=
  ⟨by decide,
   c4_cross_axis elems4W Axis.horizontal 3 3 2 0 1 [2] ⟨0, 0, 300, 100⟩ 2 _ (by decide)⟩

/-- Claim C5: when a container's children's proportions sum to `0` or
less, the pass substitutes `1` for the proportional divisor, and the
divisor `totalProportions` passed to the per-child division is always
strictly positive, so the division never divides by zero. -/
theorem c5_divisor (elems : ElemMap) (cs : List Nat) :
    (proportionSum elems cs ≤ 0 → totalProportions elems cs = 1) ∧
      0 < totalProportions elems cs := by
  constructor
  · intro h
    simp [totalProportions, h]
  · by_cases h : proportionSum elems cs ≤ 0
    · simp [totalProportions, h]
    · simp only [totalProportions, h, if_false]
      omega

theorem c5_divisor_witness :
    proportionSum elems5W [2] ≤ 0 ∧ totalProportions elems5W [2] = 1 ∧
      0 < totalProportions elems5W [2] :=
  ⟨by decide, (c5_divisor elems5W [2]).1 (by decide), (c5_divisor elems5W [2]).2⟩

/-- Claim C3, counterexample: in the API-built state `sC3` there are two
root elements (`parent = 0`); the second (identity `2`, stored bounds
`(5,5,7,8)`) has no computed rectangle after `performLayout`, because
the pass only ever visits element `1` — so its computed rectangle does
not equal its stored bounds. -/
theorem c3_counterexample :
    ¬ ((performLayout sC3).rects 2 = some ⟨5, 5, 7, 8⟩) := by decide

/-- Claim C3, amended: the root-identity property holds for the element
the pass starts from: if element `1` exists, is a root (`parent = 0`),
and never occurs in any children sequence (as the API guarantees), then
after `performLayout` its computed rectangle equals its stored `bounds`
exactly.  Roots other than identity `1` are never visited. -/
theorem c3_root_rect (s : Flexer) (el : Element)
    (h1 : s.elements 1 = some el) (hp : el.parent = 0) (hg : 0 < s.globalID)
    (hnc : ∀ j jel, s.elements j = some jel → 1 ∉ jel.children) :
    (performLayout s).rects 1 = some el.bounds := by
  obtain ⟨fuel, hfuel⟩ : ∃ f, s.globalID = f + 1 := ⟨s.globalID - 1, by omega⟩
  show performContainerLayout s.elements s.globalID 1 s.rects 1 = some el.bounds
  rw [hfuel, performContainerLayout_applyW]
  cases hch : el.children.isEmpty
  case false =>
    simp only [layoutWrites, h1, hp, hch, if_true, Bool.false_eq_true, if_false,
      Option.isSome_some, Option.getD_some, List.nil_append, List.singleton_append]
    refine applyW_head_key _ _ _ _ ?_
    intro p hpm he
    rcases childLayoutWrites_keys s.elements _ (layoutWrites_keys s.elements fuel)
        _ _ _ _ _ _ _ _ p hpm with hk | hk
    · exact hnc 1 el h1 (he ▸ hk)
    · obtain ⟨j, jel, hj, hm⟩ := hk
      exact hnc j jel hj (he ▸ hm)
  case true =>
    simp only [layoutWrites, h1, hp, hch, if_true]
    exact applyW_head_key _ _ _ _ (fun p hpm => absurd hpm (List.not_mem_nil p))

theorem c3_root_rect_witness :
    (performLayout sC3W).rects 1 = some ⟨1, 2, 30, 40⟩ :=
  c3_root_rect sC3W
    { parent := 0, bounds := ⟨1, 2, 30, 40⟩, border := 0, spacing := 0,
      children := [2], axis := .horizontal }
    rfl rfl (by decide)
    (by
      intro j jel hj hm
      by_cases hj1 : j = 1
      · subst hj1
        simp [elemsC3W, sC3W] at hj
        subst hj
        simp at hm
      · by_cases hj2 : j = 2
        · subst hj2
          simp [elemsC3W, sC3W] at hj
          subst hj
          simp at hm
        · simp [elemsC3W, sC3W, hj1, hj2] at hj)

/-- Claim C6: performing the layout pass twice in a row, with no
intervening element creation or mutation, leaves the rectangle map of
the second pass identical to that of the first.  The hypothesis states
that the traversal root (element `1`), when present, is a root element
(`parent = 0`) — which holds for every engine state reachable through
the API, where element `1` is the first element created. -/
theorem c6_idempotent (s : Flexer)
    (hroot : ((s.elements 1).map Element.parent).getD 0 = 0) :
    (performLayout (performLayout s)).rects = (performLayout s).rects := by
  show performContainerLayout s.elements s.globalID 1
      (performContainerLayout s.elements s.globalID 1 s.rects) =
    performContainerLayout s.elements s.globalID 1 s.rects
  rw [performContainerLayout_applyW s.elements s.globalID 1 s.rects,
    performContainerLayout_applyW,
    layoutWrites_parent0 s.elements s.globalID 1
      (applyW s.rects (layoutWrites s.elements s.globalID 1 (s.rects 1)) 1)
      (s.rects 1) hroot]
  exact applyW_applyW _ _

theorem c6_idempotent_witness :
    (performLayout (performLayout sC6W)).rects = (performLayout sC6W).rects :=
  c6_idempotent sC6W (by decide)

/-- Claim C7, counterexample: in the API-built state `sC7` — two fixed
children whose stored bounds carry main-axis offsets `100` and `0` —
the second-created child's computed x-position (`10`) is strictly less
than the first's (`100`), so children's main-axis positions are not in
non-decreasing creation order. -/
theorem c7_counterexample :
    ¬ ((((performLayout sC7).rects 2).getD {}).x ≤
        (((performLayout sC7).rects 3).getD {}).x) := by decide

/-- Claim C7, amended: the child rectangles a container lays out appear
in non-decreasing main-axis position order matching creation/append
order, provided each child's stored bounds carries no main-axis offset
and each child's computed main-axis size is non-negative (guaranteed
when the distributable span is non-negative, the divisor is positive,
and fixed children have non-negative stored sizes). -/
theorem c7_order (elems : ElemMap) (ax : Axis) (border spacing lastId : Nat)
    (size tp : Int) (hsize : 0 ≤ size) (htp : 0 < tp) :
    ∀ (cs : List Nat) (pb : Rect),
      (∀ c cEl, c ∈ cs → elems c = some cEl →
        mainPos ax cEl.bounds = 0 ∧ (cEl.proportion = 0 → 0 ≤ mainSize ax cEl.bounds)) →
      List.Pairwise (fun p q => mainPos ax p.2 ≤ mainPos ax q.2)
        (childRectsList elems ax border spacing lastId size tp cs pb) := by
  intro cs
  induction cs with
  | nil => intro pb _; exact List.Pairwise.nil
  | cons c rest ih =>
    intro pb hh
    cases hc : elems c with
    | none =>
      simp only [childRectsList, hc]
      exact ih pb (fun c cEl hm he => hh c cEl (List.mem_cons_of_mem _ hm) he)
    | some cEl =>
      obtain ⟨hb0, hfix⟩ := hh c cEl (List.mem_cons_self _ _) hc
      simp only [childRectsList, hc]
      refine List.Pairwise.cons ?_
        (ih _ (fun c cEl hm he => hh c cEl (List.mem_cons_of_mem _ hm) he))
      intro q hq
      have hlb := childRectsList_pos_lb elems ax border spacing lastId size tp hsize htp
        rest (advanceCursor ax pb (childRect ax border size tp pb cEl))
        (fun c cEl hm he => hh c cEl (List.mem_cons_of_mem _ hm) he) q hq
      rw [advanceCursor_mainPos] at hlb
      have h2 := childRect_mainSize_nonneg ax border size tp pb cEl hsize htp hfix
      simp only [applySpacing_mainPos, childRect_mainPos, hb0]
      omega

theorem c7_order_witness :
    List.Pairwise (fun p q => mainPos Axis.horizontal p.2 ≤ mainPos Axis.horizontal q.2)
      (childRectsList elems7W Axis.horizontal 0 0 3 200 2 [2, 3] ⟨0, 0, 200, 100⟩) :=
  c7_order elems7W Axis.horizontal 0 0 3 200 2 (by decide) (by decide) [2, 3]
    ⟨0, 0, 200, 100⟩
    (by
      intro c cEl hm he
      cases hm with
      | head =>
        simp [elems7W] at he
        subst he
        exact ⟨rfl, by intro h0; cases h0⟩
      | tail _ hm2 =>
        cases hm2 with
        | head =>
          simp [elems7W] at he
          subst he
          exact ⟨rfl, by intro h0; cases h0⟩
        | tail _ hm3 => cases hm3)

/-- Claim C8, counterexample: reading an unknown identity through
`getElementRect` mutates the rectangle map — `std::map::operator[]`
inserts a default-constructed rectangle — so on a fresh engine the map
has gained an entry for key `1` after the call. -/
theorem c8_counterexample :
    ¬ ((getElementRect flexerInit 1).2.rects 1 = flexerInit.rects 1) := by decide

/-- Claim C8, amended: `getElementRect id` returns the last-computed
rectangle for `id` (the default rectangle when absent), triggers no
layout computation, and leaves the element registry and identity counter
unchanged; but when `id` has no entry in the rectangle map, the call
inserts the default rectangle under `id` (all other entries are
untouched). -/
theorem c8_get_element_rect (s : Flexer) (id j : Nat) :
    (getElementRect s id).1 = (s.rects id).getD {} ∧
      (getElementRect s id).2.elements = s.elements ∧
      (getElementRect s id).2.globalID = s.globalID ∧
      (getElementRect s id).2.rects j =
        if j = id then some ((s.rects id).getD {}) else s.rects j := by
  cases h : s.rects id with
  | some r =>
    refine ⟨by simp [getElementRect, h], by simp [getElementRect, h],
      by simp [getElementRect, h], ?_⟩
    simp only [getElementRect, h, Option.getD_some]
    by_cases hj : j = id
    · subst hj; simp [h]
    · simp [hj]
  | none =>
    refine ⟨by simp [getElementRect, h], by simp [getElementRect, h],
      by simp [getElementRect, h], ?_⟩
    simp only [getElementRect, h, Option.getD_none]
    by_cases hj : j = id
    · subst hj; simp [insertR]
    · simp [insertR, hj]

theorem c8_get_element_rect_witness :
    (getElementRect flexerInit 5).1 = ((flexerInit.rects 5).getD {}) ∧
      (getElementRect flexerInit 5).2.elements = flexerInit.elements ∧
      (getElementRect flexerInit 5).2.globalID = flexerInit.globalID ∧
      (getElementRect flexerInit 5).2.rects 5 =
        if 5 = 5 then some ((flexerInit.rects 5).getD {}) else flexerInit.rects 5 :=
  c8_get_element_rect flexerInit 5 5

/-- Claim C9: `performLayout` never modifies the element registry or the
identity counter — every registered element keeps its parent, bounds,
proportion, border, spacing, children and axis — its only side effect is
on the rectangle map. -/
theorem c9_registry_frame (s : Flexer) :
    (performLayout s).elements = s.elements ∧ (performLayout s).globalID = s.globalID :=
  ⟨rfl, rfl⟩

theorem c9_registry_frame_witness :
    (performLayout sC1).elements = sC1.elements ∧
      (performLayout sC1).globalID = sC1.globalID :=
  c9_registry_frame sC1

/-- Claim C10, counterexample: calling `createElement` with
`el.parent = 1` on a fresh engine allocates identity `1` and, because
`addParent` then pushes the new identity onto its parent's — its own —
children vector, the newly stored element's children sequence is `[1]`,
not empty. -/
theorem c10_counterexample :
    ¬ (((createElement flexerInit { parent := 1 }).2.elements 1).map Element.children =
        some []) := by decide

/-- Claim C10, amended: provided the supplied `parent` is not the very
identity being allocated (`el.parent ≠ globalID`), the element stored by
`createElement` has an empty children sequence regardless of any
children in the argument — only bounds, axis, proportion, border and
spacing are copied, with `parent` stamped separately by `addParent` —
and the returned identities are strictly increasing, starting from the
fresh engine's counter value `1` (`createElement` returns the current
counter and bumps it by one). -/
theorem c10_create_element (s : Flexer) (el : Element) (h : el.parent ≠ s.globalID) :
    (createElement s el).1 = s.globalID ∧
      (createElement s el).2.globalID = s.globalID + 1 ∧
      (createElement s el).2.elements s.globalID =
        some { parent := el.parent, bounds := el.bounds, proportion := el.proportion,
               border := el.border, spacing := el.spacing, children := [],
               axis := el.axis } ∧
      flexerInit.globalID = 1 := by
  refine ⟨rfl, rfl, ?_, rfl⟩
  by_cases hp : el.parent = 0
  · simp [createElement, addParent, hp, insertE]
  · have hid : s.globalID ≠ el.parent := fun hh => h hh.symm
    simp only [createElement, addParent, hp, ne_eq, not_false_eq_true, if_true,
      insertE_self]
    split
    · rw [insertE_ne _ _ _ _ hid]
      exact insertE_self _ _ _
    · exact insertE_self _ _ _

theorem c10_create_element_witness :
    (createElement flexerInit elW10).1 = 1 ∧
      (createElement flexerInit elW10).2.globalID = 2 ∧
      (createElement flexerInit elW10).2.elements 1 =
        some { parent := 0, bounds := ⟨1, 1, 2, 2⟩, proportion := 1, border := 3,
               spacing := 3, children := [], axis := .horizontal } ∧
      flexerInit.globalID = 1 :=
  c10_create_element flexerInit elW10 (by decide)
